import Mathlib

/-!
A verification development for the gamepad-to-PWM control daemon.

Rust source files are shallowly embedded: `f64` values are modelled by
exact rationals (all arithmetic relevant to the statements below is
exact or insensitive to the final-bit rounding of `f64`), machine
integers by `Nat`/`Int` with explicit truncation where a cast occurs,
and fallible or panicking operations by `Option`/`Except`-style results.
-/

namespace Roestbak

/-! Section: Locomotion controller and PCA9685 driver
Embedding of src/locomotion/controller.rs and src/locomotion/pca9685.rs. -/

/-- Rust `f64::round`: round half away from zero. -/
def rustRound (q : ℚ) : ℤ :=
  if 0 ≤ q then ⌊q + 1/2⌋ else -⌊-q + 1/2⌋

def PWM_FREQUENCY : ℚ := 50

/-- Duty fraction for a 1ms pulse per 20ms cycle: `1.0 * (PWM_FREQUENCY as f64) / 1000.0`. -/
def PWM_MIN_ON_PCT : ℚ := 1 * PWM_FREQUENCY / 1000

/-- Duty fraction for a 1.5ms pulse per cycle: `1.5 * (PWM_FREQUENCY as f64) / 1000.0`. -/
def PWM_CENTER_ON_PCT : ℚ := (3/2) * PWM_FREQUENCY / 1000

/-- Duty fraction for a 2ms pulse per cycle: `2.0 * (PWM_FREQUENCY as f64) / 1000.0`. -/
def PWM_MAX_ON_PCT : ℚ := 2 * PWM_FREQUENCY / 1000

/-- Embedding of `locomotion_value_to_pwm_on_percentage` from controller.rs. -/
def locomotion_value_to_pwm_on_percentage (value : ℚ) : ℚ :=
  if value = 0 then
    PWM_CENTER_ON_PCT
  else if 0 < value then
    PWM_CENTER_ON_PCT - ((PWM_CENTER_ON_PCT - PWM_MIN_ON_PCT) * value)
  else
    PWM_CENTER_ON_PCT + ((PWM_MAX_ON_PCT - PWM_CENTER_ON_PCT) * |value|)

/-- A `LocomotionCommand` carries a throttle and a direction, both nominally
in `[-1, 1]`. -/
structure LocomotionCommand where
  throttle : ℚ
  direction : ℚ
  deriving DecidableEq, Repr

/-- Embedding of `LocomotionCommand::new`: the four `assert!` calls are modelled by
returning `none` (a panic) when the arguments are out of range. -/
def LocomotionCommand.new? (throttle direction : ℚ) : Option LocomotionCommand :=
  if -1 ≤ throttle ∧ throttle ≤ 1 ∧ -1 ≤ direction ∧ direction ≤ 1 then
    some ⟨throttle, direction⟩
  else
    none

def PCA9685_THROTTLE_CHANNEL : ℕ := 0
def PCA9685_STEERING_CHANNEL : ℕ := 1

def REGISTER_LED0_ON_L : ℕ := 0x06
def REGISTER_LED0_ON_H : ℕ := 0x07
def REGISTER_LED0_OFF_L : ℕ := 0x08
def REGISTER_LED0_OFF_H : ℕ := 0x09

/-- A single SMBus byte write: (register, value). -/
abbrev RegisterWrite := ℕ × ℕ

/-- Embedding of `PCA9685Driver::set_pwm`: the `assert!(channel < 16)` is modelled by
`none`; the four register writes are returned in program order, low byte
first.  `on` and `off` are `u16`; the `as u8` casts are `% 256`. -/
def set_pwm (channel onCount offCount : ℕ) : Option (List RegisterWrite) :=
  if channel < 16 then
    some [(REGISTER_LED0_ON_L + 4 * channel, onCount % 256),
          (REGISTER_LED0_ON_H + 4 * channel, onCount / 256 % 256),
          (REGISTER_LED0_OFF_L + 4 * channel, offCount % 256),
          (REGISTER_LED0_OFF_H + 4 * channel, offCount / 256 % 256)]
  else
    none

/-- Embedding of `PCA9685Driver::set_pwm_on_percentage`: asserts `percentage ∈ [0,1]`
(modelled by `none`), then writes ON count 0 and OFF count
`(percentage * 4095.0).round() as u16`. -/
def set_pwm_on_percentage (channel : ℕ) (percentage : ℚ) : Option (List RegisterWrite) :=
  if 0 ≤ percentage ∧ percentage ≤ 1 then
    set_pwm channel 0 (rustRound (percentage * 4095)).toNat
  else
    none

/-- Embedding of `LocomotionController::execute_command`: throttle on channel 0, then
steering on channel 1. -/
def execute_command (command : LocomotionCommand) : Option (List RegisterWrite) := do
  let throttleWrites ← set_pwm_on_percentage PCA9685_THROTTLE_CHANNEL
    (locomotion_value_to_pwm_on_percentage command.throttle)
  let steeringWrites ← set_pwm_on_percentage PCA9685_STEERING_CHANNEL
    (locomotion_value_to_pwm_on_percentage command.direction)
  pure (throttleWrites ++ steeringWrites)

/-- Embedding of `prescale_value_for_frequency` from pca9685.rs, with its two range
asserts modelled by `none`. -/
def prescale_value_for_frequency (pwm_frequency : ℕ) : Option ℕ :=
  let prescale_value : ℤ := rustRound (25000000 / (4096 * (pwm_frequency : ℚ))) - 1
  if 0x03 ≤ prescale_value ∧ prescale_value ≤ 0xFF then
    some prescale_value.toNat
  else
    none

/-! Section: Gamepad event decoding
Embedding of src/gamepads/gamepad.rs. -/

inductive Button where
  | A | B | X | Y | TL | TR | SELECT | START | MODE | THUMBL | THUMBR
  deriving DecidableEq, Repr

inductive Stick where
  | Left | Right
  deriving DecidableEq, Repr

inductive StickAxis where
  | Vertical | Horizontal
  deriving DecidableEq, Repr

inductive Trigger where
  | Left | Right
  deriving DecidableEq, Repr

inductive DpadAxis where
  | Vertical | Horizontal
  deriving DecidableEq, Repr

inductive GamepadEvent where
  | ButtonPressed (b : Button)
  | StickAdjusted (stick : Stick) (axis : StickAxis) (value : ℚ)
  | TriggerAdjusted (trigger : Trigger) (value : ℚ)
  | DpadAdjusted (axis : DpadAxis) (value : ℚ)
  deriving DecidableEq, Repr

def DEADZONE_THRESHOLD : ℚ := 15/100

def EV_SYN : ℕ := 0x00
def EV_KEY : ℕ := 0x01
def EV_ABS : ℕ := 0x03

def SYN_REPORT : ℕ := 0
def SYN_DROPPED : ℕ := 3

def BTN_A : ℕ := 0x130
def BTN_B : ℕ := 0x131
def BTN_X : ℕ := 0x133
def BTN_Y : ℕ := 0x134
def BTN_TL : ℕ := 0x136
def BTN_TR : ℕ := 0x137
def BTN_SELECT : ℕ := 0x13a
def BTN_START : ℕ := 0x13b
def BTN_MODE : ℕ := 0x13c
def BTN_THUMBL : ℕ := 0x13d
def BTN_THUMBR : ℕ := 0x13e

def ABS_X : ℕ := 0x00
def ABS_Y : ℕ := 0x01
def ABS_Z : ℕ := 0x02
def ABS_RX : ℕ := 0x03
def ABS_RY : ℕ := 0x04
def ABS_RZ : ℕ := 0x05
def ABS_HAT0X : ℕ := 0x10
def ABS_HAT0Y : ℕ := 0x11

/-- Embedding of `apply_deadzone`: values whose magnitude is below the threshold are
clamped to exactly zero. -/
def apply_deadzone (value : ℚ) : ℚ :=
  if |value| < DEADZONE_THRESHOLD then 0 else value

/-- Embedding of `create_stick_event`: saturate outside `[-32768, 32767]`, normalise
with asymmetric divisors, then apply the deadzone. -/
def create_stick_event (stick : Stick) (axis : StickAxis) (value : ℤ) : GamepadEvent :=
  let v : ℚ :=
    if value ≤ -32768 then -1
    else if 32767 ≤ value then 1
    else apply_deadzone (if value < 0 then (value : ℚ) / 32768 else (value : ℚ) / 32767)
  GamepadEvent.StickAdjusted stick axis v

/-- Embedding of `create_trigger_event`: saturate outside `[0, 1023]`, normalise by
1023, then apply the deadzone. -/
def create_trigger_event (trigger : Trigger) (value : ℤ) : GamepadEvent :=
  let v : ℚ :=
    if value ≤ 0 then 0
    else if 1023 ≤ value then 1
    else apply_deadzone ((value : ℚ) / 1023)
  GamepadEvent.TriggerAdjusted trigger v

/-- Embedding of `create_dpad_event`: clamp to -1, 0 or 1; no deadzone. -/
def create_dpad_event (axis : DpadAxis) (value : ℤ) : GamepadEvent :=
  let v : ℚ :=
    if value ≤ -1 then -1
    else if 1 ≤ value then 1
    else 0
  GamepadEvent.DpadAdjusted axis v

/-- Embedding of `process_key_event`: emit `ButtonPressed` only on the key-down
transition (`value == 1`); unknown codes are dropped. -/
def process_key_event (code : ℕ) (value : ℤ) : Option GamepadEvent :=
  if value ≠ 1 then none
  else if code = BTN_A then some (.ButtonPressed .A)
  else if code = BTN_B then some (.ButtonPressed .B)
  else if code = BTN_X then some (.ButtonPressed .X)
  else if code = BTN_Y then some (.ButtonPressed .Y)
  else if code = BTN_TL then some (.ButtonPressed .TL)
  else if code = BTN_TR then some (.ButtonPressed .TR)
  else if code = BTN_SELECT then some (.ButtonPressed .SELECT)
  else if code = BTN_START then some (.ButtonPressed .START)
  else if code = BTN_MODE then some (.ButtonPressed .MODE)
  else if code = BTN_THUMBL then some (.ButtonPressed .THUMBL)
  else if code = BTN_THUMBR then some (.ButtonPressed .THUMBR)
  else none

/-- Embedding of `process_absolute_event`: dispatch on the axis code; unknown codes
are dropped. -/
def process_absolute_event (code : ℕ) (value : ℤ) : Option GamepadEvent :=
  if code = ABS_X then some (create_stick_event .Left .Horizontal value)
  else if code = ABS_Y then some (create_stick_event .Left .Vertical value)
  else if code = ABS_RX then some (create_stick_event .Right .Horizontal value)
  else if code = ABS_RY then some (create_stick_event .Right .Vertical value)
  else if code = ABS_Z then some (create_trigger_event .Left value)
  else if code = ABS_RZ then some (create_trigger_event .Right value)
  else if code = ABS_HAT0X then some (create_dpad_event .Horizontal value)
  else if code = ABS_HAT0Y then some (create_dpad_event .Vertical value)
  else none

/-- One raw evdev `input_event` record (the timestamp is irrelevant to
the decoder and omitted). -/
structure InputEvent where
  type_ : ℕ
  code : ℕ
  value : ℤ
  deriving DecidableEq, Repr

/-- One iteration of the loop body in `Gamepad::read_events`: given the
`recovering_from_dropped` flag and one record, the new flag and the
event emitted to the handler, if any. -/
def process_record (recovering : Bool) (event : InputEvent) : Bool × Option GamepadEvent :=
  if recovering then
    if event.type_ = EV_SYN ∧ event.code = SYN_REPORT then (false, none)
    else (true, none)
  else
    if event.type_ = EV_SYN ∧ event.code = SYN_DROPPED then (true, none)
    else
      (false,
        if event.type_ = EV_KEY then process_key_event event.code event.value
        else if event.type_ = EV_ABS then process_absolute_event event.code event.value
        else none)

/-- Embedding of `Gamepad::read_events` over a drained batch of records: fold
`process_record` from the current `recovering_from_dropped` flag,
collecting the emitted events in order. -/
def read_events (recovering : Bool) : List InputEvent → Bool × List GamepadEvent
  | [] => (recovering, [])
  | event :: rest =>
      let step := process_record recovering event
      let tail := read_events step.1 rest
      (tail.1, step.2.toList ++ tail.2)

/-! Section: Orchestrator events and the input interpreter
Embedding of src/gamepads/any_gamepad.rs (the event type and the
`From<GamepadEvent>` lift) and src/gamepads/input_interpreter.rs. -/

inductive AnyGamepadEvent where
  | ButtonPressed (b : Button)
  | StickAdjusted (stick : Stick) (axis : StickAxis) (value : ℚ)
  | TriggerAdjusted (trigger : Trigger) (value : ℚ)
  | DpadAdjusted (axis : DpadAxis) (value : ℚ)
  | Disconnected
  deriving DecidableEq, Repr

/-- Embedding of `From<GamepadEvent> for AnyGamepadEvent`. -/
def AnyGamepadEvent.ofGamepadEvent : GamepadEvent → AnyGamepadEvent
  | .ButtonPressed b => .ButtonPressed b
  | .StickAdjusted stick axis value => .StickAdjusted stick axis value
  | .TriggerAdjusted trigger value => .TriggerAdjusted trigger value
  | .DpadAdjusted axis value => .DpadAdjusted axis value

structure GamepadState where
  right_trigger : ℚ
  left_trigger : ℚ
  left_stick_horizontal : ℚ
  deriving DecidableEq, Repr

/-- Embedding of `GamepadState::new`: all fields zero. -/
def GamepadState.new : GamepadState := ⟨0, 0, 0⟩

/-- The event-handler closure in
`GamepadInputInterpreter::process_input`, as a state transformer. -/
def interpret_event (state : GamepadState) : AnyGamepadEvent → GamepadState
  | .StickAdjusted stick axis value =>
      if stick = Stick.Left ∧ axis = StickAxis.Horizontal then
        { state with left_stick_horizontal := value }
      else state
  | .TriggerAdjusted trigger value =>
      match trigger with
      | .Left => { state with left_trigger := value }
      | .Right => { state with right_trigger := value }
  | .Disconnected => GamepadState.new
  | _ => state

/-- Embedding of `GamepadInputInterpreter::process_input` over the events drained in
one tick: fold the handler over the events, then build the command from
the final state with `LocomotionCommand::new` (whose asserts are
modelled by `none`). -/
def process_input (state : GamepadState) (events : List AnyGamepadEvent) :
    GamepadState × Option LocomotionCommand :=
  let final := events.foldl interpret_event state
  (final, LocomotionCommand.new? (final.right_trigger - final.left_trigger)
            final.left_stick_horizontal)

/-! Section: Gamepad detection
Embedding of src/gamepads/detection.rs.  A device path is its byte
string together with whether it designates a directory (the result of
`path.is_dir()` at predicate-evaluation time). -/

structure DevPath where
  chars : List Char
  isDir : Bool
  deriving DecidableEq, Repr

/-- Embedding of `Path::file_name`, for the paths arising here: the component after
the last separator. -/
def base_name (chars : List Char) : List Char :=
  chars.foldl (fun acc c => if c = '/' then [] else acc ++ [c]) []

/-- The literal stem of the device regex `^js-evdev\d*$`. -/
def GAMEPAD_DEVICE_STEM : List Char := ['j', 's', '-', 'e', 'v', 'd', 'e', 'v']

/-- The device regex `^js-evdev\d*$` applied to a base filename. -/
def matches_device_regex (name : List Char) : Bool :=
  decide (name.take 8 = GAMEPAD_DEVICE_STEM) && (name.drop 8).all Char.isDigit

/-- Embedding of `is_gamepad_device_file`: not a directory and base name matching the
device regex. -/
def is_gamepad_device_file (path : DevPath) : Bool :=
  !path.isDir && matches_device_regex (base_name path.chars)

inductive FolderEvent where
  | Added (path : DevPath)
  | Removed (path : DevPath)
  | AttributesChanged (path : DevPath)
  | EventQueueOverflowed
  deriving DecidableEq, Repr

/-- The event-handler closure in `GamepadDetector::process_updates`, as
a transformer of the device queue. -/
def process_update (devices : List DevPath) : FolderEvent → List DevPath
  | .Added path =>
      if is_gamepad_device_file path then
        if path ∈ devices then devices else devices ++ [path]
      else devices
  | .Removed path =>
      if is_gamepad_device_file path then
        devices.filter (fun element => element ≠ path)
      else devices
  | .AttributesChanged _ => devices
  | .EventQueueOverflowed => []

/-- Embedding of `GamepadDetector::process_updates` over a drained batch of folder
events. -/
def process_updates (devices : List DevPath) (events : List FolderEvent) : List DevPath :=
  events.foldl process_update devices

/-- Embedding of `GamepadDetector::next_gamepad_device`: rotate the queue left by one
when it has at least two entries, then peek the front. -/
def next_gamepad_device (devices : List DevPath) : List DevPath × Option DevPath :=
  let rotated := if 1 < devices.length then devices.rotate 1 else devices
  (rotated, rotated.head?)

/-- Iteration of `next_gamepad_device`: the queue after `n` calls and the
`n` returned values in order. -/
def next_gamepad_devices (devices : List DevPath) : ℕ → List DevPath × List (Option DevPath)
  | 0 => (devices, [])
  | n + 1 =>
      let step := next_gamepad_device devices
      let rest := next_gamepad_devices step.1 n
      (rest.1, step.2 :: rest.2)

/-! Section: Run-loop scheduler
Embedding of src/runloop.rs.  A monotonic instant is a duration since
boot, modelled as a rational number of seconds. -/

/-- The deadline bookkeeping in one `KeepGoing` arm of `start_runloop`:
add `interval` to the previous deadline; if the `now()` sample taken at
the end of the iteration exceeds it, reset the deadline to that sample
(overrun), otherwise sleep until the deadline. -/
def runloop_step (interval deadline endOfIteration : ℚ) : ℚ :=
  let next := deadline + interval
  if next < endOfIteration then endOfIteration else next

/-- Whether a tick whose end-of-iteration `now()` sample is given
overruns the schedule. -/
def runloop_overruns (interval deadline endOfIteration : ℚ) : Prop :=
  deadline + interval < endOfIteration

instance (interval deadline endOfIteration : ℚ) :
    Decidable (runloop_overruns interval deadline endOfIteration) := by
  unfold runloop_overruns; infer_instance

/-- The deadline after a run of `KeepGoing` iterations whose
end-of-iteration `now()` samples are given in order. -/
def runloop_deadline_after (interval deadline : ℚ) : List ℚ → ℚ
  | [] => deadline
  | t :: ts => runloop_deadline_after interval (runloop_step interval deadline t) ts

/-! Section: Signal manager
Embedding of src/signals.rs. -/

/-- Size of one signal record: `mem::size_of::<libc::signalfd_siginfo>()`. -/
def SIGNALFD_SIGINFO_SIZE : ℕ := 128

inductive ReceiveError where
  | CouldNotReadFromFileDescriptor
  | InvalidReadFromFileDescriptor
  deriving DecidableEq, Repr

/-- Possible outcomes of `SignalManager::read_from_signal_fd`, with a
separate constructor for a Rust panic so that returning an error and
panicking are distinguishable. -/
inductive ReadOutcome where
  | ok
  | err (e : ReceiveError)
  | panicked
  deriving DecidableEq, Repr

/-- Embedding of `SignalManager::read_from_signal_fd` as a function of the byte count
returned by `libc::read` (negative on failure). -/
def read_from_signal_fd (bytes_read : ℤ) : ReadOutcome :=
  if bytes_read < 0 then .err .CouldNotReadFromFileDescriptor
  else if bytes_read ≠ (SIGNALFD_SIGINFO_SIZE : ℤ) then .err .InvalidReadFromFileDescriptor
  else .ok

/-! Section: Statement-side predicates -/

/-- The value ranges the decoder guarantees for each event kind:
sticks in `[-1, 1]`, triggers in `[0, 1]`. -/
def event_values_in_range : AnyGamepadEvent → Prop
  | .StickAdjusted _ _ value => -1 ≤ value ∧ value ≤ 1
  | .TriggerAdjusted _ value => 0 ≤ value ∧ value ≤ 1
  | _ => True

instance : DecidablePred event_values_in_range := by
  intro e
  cases e <;> simp only [event_values_in_range] <;> infer_instance

/-- The interpreter state invariant: triggers in `[0, 1]`, stick in
`[-1, 1]`. -/
def state_in_range (state : GamepadState) : Prop :=
  0 ≤ state.right_trigger ∧ state.right_trigger ≤ 1
  ∧ 0 ≤ state.left_trigger ∧ state.left_trigger ≤ 1
  ∧ -1 ≤ state.left_stick_horizontal ∧ state.left_stick_horizontal ≤ 1

instance : DecidablePred state_in_range := by
  intro state
  unfold state_in_range
  infer_instance

/-- The normalised value carried by a stick event. -/
def stick_event_value : GamepadEvent → ℚ
  | .StickAdjusted _ _ value => value
  | _ => 0

/-- Whether a raw record is a `SYN_REPORT` frame boundary. -/
def is_syn_report (event : InputEvent) : Bool :=
  decide (event.type_ = EV_SYN) && decide (event.code = SYN_REPORT)

/-- Whether every tick in a run meets its deadline: the first sample must
not overrun `d0 + interval`, the second must not overrun
`d0 + 2 * interval`, and so on. -/
def non_overrunning (interval d0 : ℚ) : List ℚ → Bool
  | [] => true
  | t :: ts =>
      !(decide (runloop_overruns interval d0 t)) && non_overrunning interval (d0 + interval) ts

/-- A folder-event trace is admissible for a starting queue when every
`Added` path is eligible and not yet queued, every `Removed` path is
eligible and currently queued, and no overflow occurs. -/
def admissible : List DevPath → List FolderEvent → Bool
  | _, [] => true
  | q, .Added p :: evs =>
      is_gamepad_device_file p && decide (p ∉ q) && admissible (q ++ [p]) evs
  | q, .Removed p :: evs =>
      is_gamepad_device_file p && decide (p ∈ q) &&
        admissible (q.filter (fun element => element ≠ p)) evs
  | q, .AttributesChanged _ :: evs => admissible q evs
  | _, .EventQueueOverflowed :: _ => false

/-- The paths of the `Added` events of a trace, in order. -/
def added_paths (events : List FolderEvent) : List DevPath :=
  events.filterMap (fun e => match e with | .Added p => some p | _ => none)

/-- The number of `Added` events of a trace. -/
def count_adds (events : List FolderEvent) : ℕ := (added_paths events).length

/-- The number of `Removed` events of a trace. -/
def count_removes (events : List FolderEvent) : ℕ :=
  (events.filterMap (fun e => match e with | .Removed p => some p | _ => none)).length

/-! Section: Theorems -/

/-- Pointwise closed form of `locomotion_value_to_pwm_on_percentage`:
all three branches agree with the affine map `3/40 - v/40`. -/
theorem locomotion_value_to_pwm_on_percentage_eq (v : ℚ) :
    locomotion_value_to_pwm_on_percentage v = 3/40 - v/40 := by
  unfold locomotion_value_to_pwm_on_percentage PWM_CENTER_ON_PCT PWM_MIN_ON_PCT
    PWM_MAX_ON_PCT PWM_FREQUENCY
  rcases lt_trichotomy v 0 with h | h | h
  · rw [if_neg (by linarith), if_neg (by linarith), abs_of_neg h]; ring
  · subst h; norm_num
  · rw [if_neg (by linarith), if_pos h]; ring

/-- C1: from the raw records ABS_RZ=1023, ABS_X=-32768 and key-down BTN_A the
reader decodes right trigger +1.0, left stick horizontal -1.0 and button A;
the interpreter folds them into the command (throttle = +1.0,
direction = -1.0); and `execute_command` programs ON count 0 on both channels
with OFF count `round(4095*0.05) = 205` on channel 0 (throttle) and OFF count
`round(4095*0.10) = 410` on channel 1 (steering), each count written as a low
byte then a high byte. -/
theorem cold_start_full_throttle_pwm_writes :
    read_events false [⟨EV_ABS, ABS_RZ, 1023⟩, ⟨EV_ABS, ABS_X, -32768⟩, ⟨EV_KEY, BTN_A, 1⟩]
      = (false, [.TriggerAdjusted .Right 1, .StickAdjusted .Left .Horizontal (-1),
                 .ButtonPressed .A])
    ∧ process_input GamepadState.new
        ((read_events false
            [⟨EV_ABS, ABS_RZ, 1023⟩, ⟨EV_ABS, ABS_X, -32768⟩,
             ⟨EV_KEY, BTN_A, 1⟩]).2.map AnyGamepadEvent.ofGamepadEvent)
      = (⟨1, 0, -1⟩, some ⟨1, -1⟩)
    ∧ rustRound (locomotion_value_to_pwm_on_percentage 1 * 4095) = 205
    ∧ rustRound (locomotion_value_to_pwm_on_percentage (-1) * 4095) = 410
    ∧ execute_command ⟨1, -1⟩
      = some [(6, 0), (7, 0), (8, 205), (9, 0), (10, 0), (11, 0), (12, 154), (13, 1)] := by
  have hdecode :
      read_events false
        [⟨EV_ABS, ABS_RZ, 1023⟩, ⟨EV_ABS, ABS_X, -32768⟩, ⟨EV_KEY, BTN_A, 1⟩]
      = (false, [.TriggerAdjusted .Right 1, .StickAdjusted .Left .Horizontal (-1),
                 .ButtonPressed .A]) := by decide
  refine ⟨hdecode, ?_, ?_, ?_, ?_⟩
  · rw [hdecode]
    simp [process_input, interpret_event, AnyGamepadEvent.ofGamepadEvent,
      LocomotionCommand.new?, GamepadState.new]
  · norm_num [rustRound, locomotion_value_to_pwm_on_percentage_eq]
  · norm_num [rustRound, locomotion_value_to_pwm_on_percentage_eq]
  · simp only [execute_command, set_pwm_on_percentage, set_pwm,
      locomotion_value_to_pwm_on_percentage_eq, rustRound,
      PCA9685_THROTTLE_CHANNEL, PCA9685_STEERING_CHANNEL,
      REGISTER_LED0_ON_L, REGISTER_LED0_ON_H, REGISTER_LED0_OFF_L, REGISTER_LED0_OFF_H]
    norm_num
    decide

/-- C6: the locomotion-value-to-duty map has `duty(0) = 0.075`,
`duty(1) = 0.05`, `duty(-1) = 0.10`, and is strictly decreasing over the
whole domain `[-1, 1]`. -/
theorem locomotion_duty_endpoints_and_decreasing :
    locomotion_value_to_pwm_on_percentage 0 = 75/1000
    ∧ locomotion_value_to_pwm_on_percentage 1 = 5/100
    ∧ locomotion_value_to_pwm_on_percentage (-1) = 10/100
    ∧ ∀ a b : ℚ, -1 ≤ a → a < b → b ≤ 1 →
        locomotion_value_to_pwm_on_percentage b < locomotion_value_to_pwm_on_percentage a := by
  refine ⟨by norm_num [locomotion_value_to_pwm_on_percentage_eq],
          by norm_num [locomotion_value_to_pwm_on_percentage_eq],
          by norm_num [locomotion_value_to_pwm_on_percentage_eq],
          fun a b _ hab _ => ?_⟩
  rw [locomotion_value_to_pwm_on_percentage_eq, locomotion_value_to_pwm_on_percentage_eq]
  linarith

/-- Witness for C6 at `a = 0`, `b = 1`. -/
theorem locomotion_duty_endpoints_and_decreasing_witness :
    locomotion_value_to_pwm_on_percentage 1 < locomotion_value_to_pwm_on_percentage 0 :=
  locomotion_duty_endpoints_and_decreasing.2.2.2 0 1 (by norm_num) (by norm_num) (by norm_num)

/-- C9 counterexample: a read of 64 bytes from the signal descriptor (a
malformed record, shorter than the 128-byte `signalfd_siginfo`) makes
`read_from_signal_fd` return the error
`ReceiveError::InvalidReadFromFileDescriptor`; it does not panic. -/
theorem short_signal_read_returns_error_not_panic :
    read_from_signal_fd 64 = ReadOutcome.err ReceiveError.InvalidReadFromFileDescriptor
    ∧ read_from_signal_fd 64 ≠ ReadOutcome.panicked := by
  decide

/-- C9 amended: a read from the signal descriptor returning a non-negative
byte count different from the full `signalfd_siginfo` size makes
`next_signal` fail with the returned error
`ReceiveError::InvalidReadFromFileDescriptor` (fatal to the run-loop); it
never panics. -/
theorem short_signal_read_fails_with_error (bytes_read : ℤ)
    (hnonneg : 0 ≤ bytes_read) (hshort : bytes_read ≠ (SIGNALFD_SIGINFO_SIZE : ℤ)) :
    read_from_signal_fd bytes_read = ReadOutcome.err ReceiveError.InvalidReadFromFileDescriptor
    ∧ read_from_signal_fd bytes_read ≠ ReadOutcome.panicked := by
  unfold read_from_signal_fd
  rw [if_neg (by omega), if_pos hshort]
  exact ⟨rfl, by simp⟩

/-- Witness for C9 amended at a 64-byte read. -/
theorem short_signal_read_fails_with_error_witness :
    read_from_signal_fd 64 = ReadOutcome.err ReceiveError.InvalidReadFromFileDescriptor :=
  (short_signal_read_fails_with_error 64 (by norm_num) (by decide)).1

/-- One interpreter step keeps the state fields in their ranges. -/
theorem interpret_event_preserves_range (s : GamepadState) (e : AnyGamepadEvent)
    (hs : state_in_range s) (he : event_values_in_range e) :
    state_in_range (interpret_event s e) := by
  obtain ⟨h1, h2, h3, h4, h5, h6⟩ := hs
  cases e with
  | StickAdjusted stick axis value =>
      obtain ⟨hv1, hv2⟩ := he
      by_cases h : stick = Stick.Left ∧ axis = StickAxis.Horizontal
      · simp only [interpret_event, if_pos h]
        exact ⟨h1, h2, h3, h4, hv1, hv2⟩
      · simp only [interpret_event, if_neg h]
        exact ⟨h1, h2, h3, h4, h5, h6⟩
  | TriggerAdjusted trigger value =>
      obtain ⟨hv1, hv2⟩ := he
      cases trigger
      · exact ⟨h1, h2, hv1, hv2, h5, h6⟩
      · exact ⟨hv1, hv2, h3, h4, h5, h6⟩
  | Disconnected =>
      refine ⟨?_, ?_, ?_, ?_, ?_, ?_⟩ <;> norm_num [interpret_event, GamepadState.new]
  | ButtonPressed b => exact ⟨h1, h2, h3, h4, h5, h6⟩
  | DpadAdjusted axis value => exact ⟨h1, h2, h3, h4, h5, h6⟩

/-- Folding in-range events from an in-range state stays in range. -/
theorem foldl_interpret_preserves_range (events : List AnyGamepadEvent) :
    ∀ s : GamepadState, state_in_range s → (∀ e ∈ events, event_values_in_range e) →
      state_in_range (events.foldl interpret_event s) := by
  induction events with
  | nil => intro s hs _; exact hs
  | cons e rest ih =>
      intro s hs he
      exact ih (interpret_event s e)
        (interpret_event_preserves_range s e hs (he e (by simp)))
        (fun x hx => he x (by simp [hx]))

/-- C2: over the events drained in one call, `process_input` returns the
command with throttle `right_trigger - left_trigger` and direction
`left_stick_horizontal` of the folded state; only
`StickAdjusted(Left, Horizontal, _)`, `TriggerAdjusted(_, _)` and
`Disconnected` mutate the state; `Disconnected` resets the state to zero, so
a tick ending in `Disconnected` yields the neutral command `(0, 0)`. -/
theorem process_input_folds_state_into_command (state : GamepadState)
    (events : List AnyGamepadEvent) (hs : state_in_range state)
    (he : ∀ e ∈ events, event_values_in_range e) :
    (process_input state events).2
      = some ⟨(events.foldl interpret_event state).right_trigger
                - (events.foldl interpret_event state).left_trigger,
              (events.foldl interpret_event state).left_stick_horizontal⟩
    ∧ (∀ s : GamepadState, interpret_event s .Disconnected = GamepadState.new)
    ∧ (∀ (s : GamepadState) (b : Button), interpret_event s (.ButtonPressed b) = s)
    ∧ (∀ (s : GamepadState) (axis : DpadAxis) (v : ℚ),
        interpret_event s (.DpadAdjusted axis v) = s)
    ∧ (∀ (s : GamepadState) (stick : Stick) (axis : StickAxis) (v : ℚ),
        ¬(stick = Stick.Left ∧ axis = StickAxis.Horizontal) →
        interpret_event s (.StickAdjusted stick axis v) = s)
    ∧ (process_input state (events ++ [.Disconnected])).2 = some ⟨0, 0⟩ := by
  obtain ⟨h1, h2, h3, h4, h5, h6⟩ := foldl_interpret_preserves_range events state hs he
  refine ⟨?_, fun s => rfl, fun s b => rfl, fun s axis v => rfl,
          fun s stick axis v h => by simp only [interpret_event, if_neg h], ?_⟩
  · simp only [process_input, LocomotionCommand.new?]
    rw [if_pos ⟨by linarith, by linarith, h5, h6⟩]
  · simp only [process_input, List.foldl_append, List.foldl_cons, List.foldl_nil]
    norm_num [interpret_event, GamepadState.new, LocomotionCommand.new?]

/-- Witness for C2: one right-trigger pull from the neutral state yields the
command (1, 0). -/
theorem process_input_folds_state_into_command_witness :
    (process_input GamepadState.new [AnyGamepadEvent.TriggerAdjusted .Right 1]).2
      = some ⟨1, 0⟩ := by
  have h := process_input_folds_state_into_command GamepadState.new
    [AnyGamepadEvent.TriggerAdjusted .Right 1]
    (by norm_num [state_in_range, GamepadState.new])
    (by intro e hmem; simp only [List.mem_singleton] at hmem; subst hmem
        norm_num [event_values_in_range])
  refine h.1.trans ?_
  norm_num [List.foldl, interpret_event, GamepadState.new]

/-- C10: for decoder-range events, the three interpreter state fields stay in
their ranges after every event, hence the throttle and direction handed to
`LocomotionCommand::new` lie in `[-1, 1]` and its range assertions can never
fire. -/
theorem interpreter_state_stays_in_range (state : GamepadState)
    (events : List AnyGamepadEvent) (hs : state_in_range state)
    (he : ∀ e ∈ events, event_values_in_range e) :
    (∀ n : ℕ, state_in_range ((events.take n).foldl interpret_event state))
    ∧ (-1 ≤ (events.foldl interpret_event state).right_trigger
              - (events.foldl interpret_event state).left_trigger
        ∧ (events.foldl interpret_event state).right_trigger
              - (events.foldl interpret_event state).left_trigger ≤ 1
        ∧ -1 ≤ (events.foldl interpret_event state).left_stick_horizontal
        ∧ (events.foldl interpret_event state).left_stick_horizontal ≤ 1)
    ∧ (process_input state events).2.isSome = true := by
  obtain ⟨h1, h2, h3, h4, h5, h6⟩ := foldl_interpret_preserves_range events state hs he
  refine ⟨?_, ⟨by linarith, by linarith, h5, h6⟩, ?_⟩
  · intro n
    exact foldl_interpret_preserves_range (events.take n) state hs
      (fun e hmem => he e (List.take_subset n events hmem))
  · simp only [process_input, LocomotionCommand.new?]
    rw [if_pos ⟨by linarith, by linarith, h5, h6⟩]
    rfl

/-- Witness for C10: a full push of both triggers from neutral keeps the
assertions satisfiable. -/
theorem interpreter_state_stays_in_range_witness :
    (process_input GamepadState.new
      [AnyGamepadEvent.TriggerAdjusted .Right 1,
       AnyGamepadEvent.TriggerAdjusted .Left 1]).2.isSome = true :=
  (interpreter_state_stays_in_range GamepadState.new
    [AnyGamepadEvent.TriggerAdjusted .Right 1, AnyGamepadEvent.TriggerAdjusted .Left 1]
    (by norm_num [state_in_range, GamepadState.new])
    (by intro e hmem
        simp only [List.mem_cons, List.mem_singleton] at hmem
        rcases hmem with h | h | h <;> first
          | (subst h; norm_num [event_values_in_range])
          | exact absurd h (by simp))).2.2

/-- The deadzone keeps values inside `[-1, 1]`. -/
theorem apply_deadzone_bounds (u : ℚ) (h1 : -1 ≤ u) (h2 : u ≤ 1) :
    -1 ≤ apply_deadzone u ∧ apply_deadzone u ≤ 1 := by
  unfold apply_deadzone
  split
  · norm_num
  · exact ⟨h1, h2⟩

/-- A deadzoned value of magnitude below the threshold is exactly zero. -/
theorem apply_deadzone_small (u : ℚ) (h : |apply_deadzone u| < DEADZONE_THRESHOLD) :
    apply_deadzone u = 0 := by
  by_cases hc : |u| < DEADZONE_THRESHOLD
  · rw [apply_deadzone, if_pos hc]
  · rw [apply_deadzone, if_neg hc] at h
    exact absurd h hc

/-- C5: for every raw stick value, the emitted normalised value lies in
`[-1, 1]`; magnitudes below 0.15 are emitted as exactly 0; values at or
beyond the nominal endpoints saturate to -1 and 1; and in between the value
is `v/32768` for negative and `v/32767` for non-negative raw values, with the
deadzone applied afterwards. -/
theorem stick_normalisation_spec (v : ℤ) (stick : Stick) (axis : StickAxis) :
    (-1 ≤ stick_event_value (create_stick_event stick axis v)
      ∧ stick_event_value (create_stick_event stick axis v) ≤ 1)
    ∧ (|stick_event_value (create_stick_event stick axis v)| < 15/100 →
        stick_event_value (create_stick_event stick axis v) = 0)
    ∧ (v ≤ -32768 → stick_event_value (create_stick_event stick axis v) = -1)
    ∧ (32767 ≤ v → stick_event_value (create_stick_event stick axis v) = 1)
    ∧ (-32768 < v → v < 32767 →
        stick_event_value (create_stick_event stick axis v)
          = apply_deadzone (if v < 0 then (v : ℚ) / 32768 else (v : ℚ) / 32767)) := by
  have hval : stick_event_value (create_stick_event stick axis v)
      = if v ≤ -32768 then -1 else if 32767 ≤ v then (1 : ℚ)
        else apply_deadzone (if v < 0 then (v : ℚ) / 32768 else (v : ℚ) / 32767) := rfl
  rw [hval]
  by_cases hneg : v ≤ -32768
  · rw [if_pos hneg]
    refine ⟨⟨by norm_num, by norm_num⟩, ?_, fun _ => rfl, ?_, ?_⟩
    · intro h; rw [abs_neg, abs_one] at h; norm_num at h
    · intro h; exact absurd h (by omega)
    · intro h; exact absurd h (by omega)
  · rw [if_neg hneg]
    by_cases hpos : 32767 ≤ v
    · rw [if_pos hpos]
      refine ⟨⟨by norm_num, by norm_num⟩, ?_, ?_, fun _ => rfl, ?_⟩
      · intro h; rw [abs_one] at h; norm_num at h
      · intro h; exact absurd h hneg
      · intro _ h; exact absurd h (by omega)
    · rw [if_neg hpos]
      have hv1 : -32768 < v := by omega
      have hv2 : v < 32767 := by omega
      have hc1 : (-32768 : ℚ) < (v : ℚ) := by exact_mod_cast hv1
      have hc2 : (v : ℚ) < 32767 := by exact_mod_cast hv2
      have hub : -1 ≤ (if v < 0 then (v : ℚ) / 32768 else (v : ℚ) / 32767)
          ∧ (if v < 0 then (v : ℚ) / 32768 else (v : ℚ) / 32767) ≤ 1 := by
        split
        · constructor
          · rw [le_div_iff₀ (by norm_num : (0 : ℚ) < 32768)]; linarith
          · rw [div_le_one (by norm_num : (0 : ℚ) < 32768)]; linarith
        · rename_i hge
          have hc0 : (0 : ℚ) ≤ (v : ℚ) := by exact_mod_cast (by omega : (0 : ℤ) ≤ v)
          constructor
          · have := div_nonneg hc0 (by norm_num : (0 : ℚ) ≤ 32767); linarith
          · rw [div_le_one (by norm_num : (0 : ℚ) < 32767)]; linarith
      refine ⟨apply_deadzone_bounds _ hub.1 hub.2, ?_, ?_, ?_, fun _ _ => rfl⟩
      · intro h
        exact apply_deadzone_small _ (by simpa [DEADZONE_THRESHOLD] using h)
      · intro h; exact absurd h hneg
      · intro h; exact absurd h hpos

/-- Witness for C5: saturation at raw values beyond each endpoint. -/
theorem stick_normalisation_spec_witness :
    stick_event_value (create_stick_event .Left .Horizontal (-40000)) = -1
    ∧ stick_event_value (create_stick_event .Left .Horizontal 50000) = 1 :=
  ⟨(stick_normalisation_spec (-40000) .Left .Horizontal).2.2.1 (by norm_num),
   (stick_normalisation_spec 50000 .Left .Horizontal).2.2.2.1 (by norm_num)⟩

/-- Unfolding of `read_events` on a cons cell. -/
theorem read_events_cons (r : Bool) (e : InputEvent) (rest : List InputEvent) :
    read_events r (e :: rest)
      = ((read_events (process_record r e).1 rest).1,
         (process_record r e).2.toList ++ (read_events (process_record r e).1 rest).2) := rfl

/-- Running `read_events` over an appended batch composes state and output. -/
theorem read_events_append (xs : List InputEvent) :
    ∀ (r : Bool) (ys : List InputEvent),
      read_events r (xs ++ ys)
        = ((read_events (read_events r xs).1 ys).1,
           (read_events r xs).2 ++ (read_events (read_events r xs).1 ys).2) := by
  induction xs with
  | nil => intro r ys; simp [read_events]
  | cons e rest ih =>
      intro r ys
      rw [List.cons_append, read_events_cons, read_events_cons, ih]
      simp [List.append_assoc]

/-- While recovering, any record that is not a `SYN_REPORT` is discarded
and the reader stays in the recovering state. -/
theorem process_record_recovering_discards (e : InputEvent) (h : is_syn_report e = false) :
    process_record true e = (true, none) := by
  have hnot : ¬(e.type_ = EV_SYN ∧ e.code = SYN_REPORT) := by
    intro ⟨ha, hb⟩
    simp [is_syn_report, ha, hb] at h
  simp [process_record, hnot]

/-- While recovering, a whole batch without a `SYN_REPORT` emits nothing
and leaves the reader recovering. -/
theorem read_events_recovering_discards (noise : List InputEvent)
    (h : ∀ e ∈ noise, is_syn_report e = false) :
    read_events true noise = (true, []) := by
  induction noise with
  | nil => rfl
  | cons e rest ih =>
      rw [read_events_cons, process_record_recovering_discards e (h e (by simp))]
      rw [ih (fun x hx => h x (by simp [hx]))]
      rfl

/-- C3: between a `SYN_DROPPED` record and the next `SYN_REPORT` the reader
emits no event at all; in particular the batch
`{SYN_DROPPED, noise, SYN_REPORT, key-down BTN_A}` (for noise containing no
`SYN_REPORT`) emits exactly `ButtonPressed(A)`. -/
theorem reader_drop_recovery (noise : List InputEvent)
    (h : ∀ e ∈ noise, is_syn_report e = false) :
    read_events true noise = (true, [])
    ∧ (∀ value : ℤ, process_record false ⟨EV_SYN, SYN_DROPPED, value⟩ = (true, none))
    ∧ read_events false
        (⟨EV_SYN, SYN_DROPPED, 0⟩
          :: (noise ++ [⟨EV_SYN, SYN_REPORT, 0⟩, ⟨EV_KEY, BTN_A, 1⟩]))
      = (false, [.ButtonPressed .A]) := by
  have hrec := read_events_recovering_discards noise h
  have htail : read_events true (noise ++ [⟨EV_SYN, SYN_REPORT, 0⟩, ⟨EV_KEY, BTN_A, 1⟩])
      = (false, [.ButtonPressed .A]) := by
    rw [read_events_append, hrec]
    decide
  refine ⟨hrec, fun value => rfl, ?_⟩
  rw [read_events_cons]
  have hstep : process_record false ⟨EV_SYN, SYN_DROPPED, 0⟩ = (true, none) := rfl
  rw [hstep, htail]
  rfl

/-- Witness for C3: a single mid-recovery axis record is discarded. -/
theorem reader_drop_recovery_witness :
    read_events true [⟨EV_ABS, ABS_X, 500⟩] = (true, []) :=
  (reader_drop_recovery [⟨EV_ABS, ABS_X, 500⟩] (by decide)).1

/-- Unfolding of `runloop_deadline_after` on a cons cell. -/
theorem runloop_deadline_after_cons (interval d0 t : ℚ) (ts : List ℚ) :
    runloop_deadline_after interval d0 (t :: ts)
      = runloop_deadline_after interval (runloop_step interval d0 t) ts := rfl

/-- Deadlines across a non-overrunning run advance by exactly `interval`
per tick. -/
theorem runloop_no_overrun_deadlines (ts : List ℚ) :
    ∀ interval d0 : ℚ, non_overrunning interval d0 ts = true →
      ∀ n : ℕ, n ≤ ts.length →
        runloop_deadline_after interval d0 (ts.take n) = d0 + n * interval := by
  induction ts with
  | nil =>
      intro interval d0 _ n hn
      have hzero : n = 0 := Nat.le_zero.mp hn
      subst hzero
      simp [runloop_deadline_after]
  | cons t rest ih =>
      intro interval d0 hno n hn
      simp only [non_overrunning, Bool.and_eq_true, Bool.not_eq_true',
        decide_eq_false_iff_not] at hno
      obtain ⟨hfirst, hrest⟩ := hno
      cases n with
      | zero => simp [runloop_deadline_after]
      | succ m =>
          have hstep : runloop_step interval d0 t = d0 + interval := by
            simp only [runloop_step]
            rw [if_neg (by unfold runloop_overruns at hfirst; exact hfirst)]
          rw [List.take_succ_cons, runloop_deadline_after_cons, hstep,
            ih interval (d0 + interval) hrest m (by simpa using hn)]
          push_cast
          ring

/-- C4: across any k consecutive non-overrunning ticks the deadline advances
by exactly `interval` per tick (zero drift); and on an overrunning tick the
next deadline is reset to the `now()` value sampled at overrun detection. -/
theorem runloop_schedule (interval d0 : ℚ) (ts : List ℚ)
    (hno : non_overrunning interval d0 ts = true) :
    (∀ n : ℕ, n ≤ ts.length →
        runloop_deadline_after interval d0 (ts.take n) = d0 + n * interval)
    ∧ (∀ deadline endOfIteration : ℚ,
        runloop_overruns interval deadline endOfIteration →
        runloop_step interval deadline endOfIteration = endOfIteration) := by
  refine ⟨runloop_no_overrun_deadlines ts interval d0 hno, ?_⟩
  intro deadline endOfIteration hover
  simp only [runloop_step]
  rw [if_pos (by unfold runloop_overruns at hover; exact hover)]

/-- Witness for C4: two 10-unit ticks completing at times 5 and 12 leave the
deadline at 20; a tick completing at 45 against deadline 30 resets to 45. -/
theorem runloop_schedule_witness :
    runloop_deadline_after 10 0 [5, 12] = 20 ∧ runloop_step 10 20 45 = 45 := by
  have h := runloop_schedule 10 0 [5, 12]
    (by norm_num [non_overrunning, runloop_overruns])
  constructor
  · have h1 := h.1 2 (by norm_num)
    norm_num at h1
    exact h1
  · exact h.2 20 45 (by norm_num [runloop_overruns])

/-- Unfolding of `next_gamepad_devices` on a successor. -/
theorem next_gamepad_devices_succ (q : List DevPath) (n : ℕ) :
    (next_gamepad_devices q (n + 1)).2
      = (next_gamepad_device q).2 :: (next_gamepad_devices (next_gamepad_device q).1 n).2 := rfl

/-- With at least two queued devices, `n ≤ k` calls return the first `n`
entries of the queue rotated left by one. -/
theorem next_gamepad_devices_take (n : ℕ) :
    ∀ q : List DevPath, 2 ≤ q.length → n ≤ q.length →
      (next_gamepad_devices q n).2 = ((q.rotate 1).take n).map some := by
  induction n with
  | zero => intro q _ _; simp [next_gamepad_devices]
  | succ m ih =>
      intro q h2 hn
      have h1 : 1 < q.length := h2
      have hrot : next_gamepad_device q = (q.rotate 1, (q.rotate 1).head?) := by
        simp [next_gamepad_device, h1]
      rw [next_gamepad_devices_succ, hrot]
      obtain ⟨a, l, hal⟩ :=
        List.exists_cons_of_ne_nil (by rw [← List.length_pos]; omega : q ≠ [])
      subst hal
      rw [List.rotate_cons_succ, List.rotate_zero] at *
      have hlen : m ≤ l.length := by simp at hn; omega
      rw [ih (l ++ [a]) (by simpa using h2) (by simp; omega)]
      obtain ⟨b, t, hbt⟩ :=
        List.exists_cons_of_ne_nil (by simp : l ++ [a] ≠ ([] : List DevPath))
      rw [hbt, List.rotate_cons_succ, List.rotate_zero]
      have hm : m ≤ t.length := by
        have := congrArg List.length hbt
        simp at this hn ⊢
        omega
      rw [List.take_append_of_le_length hm]
      simp [List.take_succ_cons]

/-- Counting an element through the `some` wrapper. -/
theorem count_map_some (r : List DevPath) (p : DevPath) :
    (r.map some).count (some p) = r.count p := by
  induction r with
  | nil => rfl
  | cons a t ih => simp [List.count_cons, ih, Option.some.injEq]

/-- C7: with `k ≥ 2` distinct queued paths, `k` consecutive calls to
`next_gamepad_device` return exactly the queue rotated left by one; each
queued path is returned exactly once and nothing else is returned. -/
theorem next_device_round_robin (q : List DevPath) (h2 : 2 ≤ q.length)
    (hnd : q.Nodup) :
    (next_gamepad_devices q q.length).2 = (q.rotate 1).map some
    ∧ (∀ p ∈ q, ((next_gamepad_devices q q.length).2.count (some p)) = 1)
    ∧ (∀ p : DevPath, some p ∈ (next_gamepad_devices q q.length).2 → p ∈ q) := by
  have houts : (next_gamepad_devices q q.length).2
      = ((q.rotate 1).take q.length).map some :=
    next_gamepad_devices_take q.length q h2 le_rfl
  have htake : (q.rotate 1).take q.length = q.rotate 1 := by
    rw [← List.length_rotate q 1, List.take_length]
  rw [houts, htake]
  refine ⟨rfl, ?_, ?_⟩
  · intro p hp
    rw [count_map_some, (List.rotate_perm q 1).count_eq]
    exact List.count_eq_one_of_mem hnd hp
  · intro p hp
    obtain ⟨x, hx, hxe⟩ := List.mem_map.mp hp
    rw [Option.some_injective _ hxe] at hx
    exact (List.rotate_perm q 1).mem_iff.mp hx

/-- Witness for C7: a queue of two distinct paths returns each exactly once
across two calls. -/
theorem next_device_round_robin_witness :
    ((next_gamepad_devices [⟨['a'], false⟩, ⟨['b'], false⟩] 2).2.count
      (some ⟨['a'], false⟩)) = 1 :=
  (next_device_round_robin [⟨['a'], false⟩, ⟨['b'], false⟩] (by decide)
    (by decide)).2.1 ⟨['a'], false⟩ (by decide)

/-- Removing one present element from a duplicate-free queue shortens it
by exactly one. -/
theorem filter_ne_length (p : DevPath) :
    ∀ q : List DevPath, q.Nodup → p ∈ q →
      (q.filter (fun element => element ≠ p)).length + 1 = q.length := by
  intro q hnd hp
  induction q with
  | nil => cases hp
  | cons a rest ih =>
      rw [List.nodup_cons] at hnd
      rcases List.mem_cons.mp hp with h | h
      · subst h
        have hkeep : rest.filter (fun element => element ≠ p) = rest := by
          refine List.filter_eq_self.mpr ?_
          intro x hx
          simp only [ne_eq, decide_eq_true_eq]
          intro he
          exact hnd.1 (he ▸ hx)
        simp [List.filter_cons, hkeep]
        exact fun a ha he => hnd.1 (he ▸ ha)
      · have hne : (a : DevPath) ≠ p := fun he => hnd.1 (he ▸ h)
        have := ih hnd.2 h
        simp only [List.filter_cons, List.length_cons]
        rw [if_pos (by simpa using hne)]
        simpa using this

/-- Effect of `process_updates` on an admissible trace: the queue stays
duplicate-free, its length tracks adds minus removes, and it stays a
subsequence of the original queue followed by the added paths in
insertion order. -/
theorem process_updates_admissible (events : List FolderEvent) :
    ∀ q : List DevPath, q.Nodup → admissible q events = true →
      (process_updates q events).Nodup
      ∧ (process_updates q events).length + count_removes events
          = q.length + count_adds events
      ∧ (process_updates q events).Sublist (q ++ added_paths events) := by
  induction events with
  | nil =>
      intro q hnd _
      refine ⟨hnd, by simp [process_updates, count_removes, count_adds, added_paths], ?_⟩
      simp [process_updates, added_paths]
  | cons e rest ih =>
      intro q hnd hadm
      cases e with
      | Added p =>
          simp only [admissible, Bool.and_eq_true, decide_eq_true_eq] at hadm
          obtain ⟨⟨hel, hnot⟩, hrest⟩ := hadm
          have hq : process_updates q (.Added p :: rest) = process_updates (q ++ [p]) rest := by
            simp [process_updates, process_update, hel, hnot]
          have hnd2 : (q ++ [p]).Nodup := by
            simp [List.nodup_append, hnd, hnot]
          obtain ⟨h1, h2, h3⟩ := ih (q ++ [p]) hnd2 hrest
          refine ⟨by rwa [hq], ?_, ?_⟩
          · rw [hq]
            simp only [count_removes, count_adds, added_paths, List.filterMap_cons] at *
            simp only [List.length_append, List.length_cons, List.length_nil] at *
            omega
          · have hadds : added_paths (.Added p :: rest) = p :: added_paths rest := by
              simp [added_paths]
            rw [hq, hadds]
            rw [List.append_assoc, List.singleton_append] at h3
            exact h3
      | Removed p =>
          simp only [admissible, Bool.and_eq_true, decide_eq_true_eq] at hadm
          obtain ⟨⟨hel, hmem⟩, hrest⟩ := hadm
          have hq : process_updates q (.Removed p :: rest)
              = process_updates (q.filter (fun element => element ≠ p)) rest := by
            simp [process_updates, process_update, hel]
          have hnd2 : (q.filter (fun element => element ≠ p)).Nodup := hnd.filter _
          obtain ⟨h1, h2, h3⟩ := ih _ hnd2 hrest
          have hlen := filter_ne_length p q hnd hmem
          refine ⟨by rwa [hq], ?_, ?_⟩
          · rw [hq]
            simp only [count_removes, count_adds, added_paths, List.filterMap_cons] at *
            simp only [List.length_cons] at *
            omega
          · rw [hq]
            have hadds : added_paths (.Removed p :: rest) = added_paths rest := by
              simp [added_paths]
            rw [hadds]
            exact h3.trans (((List.filter_sublist q).append_right _))
      | AttributesChanged p =>
          simp only [admissible] at hadm
          have hq : process_updates q (.AttributesChanged p :: rest)
              = process_updates q rest := rfl
          obtain ⟨h1, h2, h3⟩ := ih q hnd hadm
          refine ⟨by rwa [hq], ?_, ?_⟩
          · rw [hq]
            simpa [count_removes, count_adds, added_paths] using h2
          · rw [hq]
            simpa [added_paths] using h3
      | EventQueueOverflowed => simp [admissible] at hadm

/-- C8: for an admissible trace of folder events starting from an empty
queue — `n` eligible `Added` paths, pairwise distinct, and `m` `Removed`
events each matching a queued path — the final queue holds exactly
`n - m` entries, has no duplicates, and preserves insertion order; an
`EventQueueOverflowed` event empties the queue. -/
theorem detector_queue_tracking (events : List FolderEvent)
    (hadm : admissible [] events = true) (_hdistinct : (added_paths events).Nodup) :
    (process_updates [] events).length + count_removes events = count_adds events
    ∧ count_removes events ≤ count_adds events
    ∧ (process_updates [] events).Nodup
    ∧ (process_updates [] events).Sublist (added_paths events)
    ∧ (∀ q : List DevPath, process_update q .EventQueueOverflowed = []) := by
  obtain ⟨h1, h2, h3⟩ := process_updates_admissible events [] List.nodup_nil hadm
  simp only [List.length_nil, List.nil_append, Nat.zero_add] at h2 h3
  exact ⟨h2, by omega, h1, h3, fun q => rfl⟩

/-- Witness for C8: add two devices, remove the first; one device remains. -/
theorem detector_queue_tracking_witness :
    (process_updates []
      [.Added ⟨['j', 's', '-', 'e', 'v', 'd', 'e', 'v', '1'], false⟩,
       .Added ⟨['j', 's', '-', 'e', 'v', 'd', 'e', 'v', '2'], false⟩,
       .Removed ⟨['j', 's', '-', 'e', 'v', 'd', 'e', 'v', '1'], false⟩]).length
      + count_removes
          [.Added ⟨['j', 's', '-', 'e', 'v', 'd', 'e', 'v', '1'], false⟩,
           .Added ⟨['j', 's', '-', 'e', 'v', 'd', 'e', 'v', '2'], false⟩,
           .Removed ⟨['j', 's', '-', 'e', 'v', 'd', 'e', 'v', '1'], false⟩]
      = count_adds
          [.Added ⟨['j', 's', '-', 'e', 'v', 'd', 'e', 'v', '1'], false⟩,
           .Added ⟨['j', 's', '-', 'e', 'v', 'd', 'e', 'v', '2'], false⟩,
           .Removed ⟨['j', 's', '-', 'e', 'v', 'd', 'e', 'v', '1'], false⟩] :=
  (detector_queue_tracking _ (by decide) (by decide)).1

end Roestbak
